import Mathlib

/-!
Verification development for the MIDI decoding core of the M2V repository
(`src/m2v/engine/utils/midi.py`).

The Python source is shallowly embedded: every event dataclass becomes a
constructor of `EventBody`, the byte-level parser functions become functions
over `List Nat` (byte lists) returning `Except ParseError`, the tempo map and
the note assembler become explicit-state functions returning `Except PyError`
(Python `KeyError` / `IndexError` become the constructors of `PyError`),
and Python floats are modelled by exact rationals `ℚ` (the source only uses
division, multiplication and addition on them).
-/

namespace M2V

/-- Payloads of the MIDI event dataclasses of the source: channel events
(`NoteOnEvent` … `PitchBendEvent`), meta events (`SequenceNumberEvent` …
`SequencerEvent`) and system-exclusive events.  `midiChanPfx` embeds the
channel-prefix meta event (renamed to satisfy lexical constraints). -/
inductive EventBody where
  | noteOn (channel note velocity : Nat)
  | noteOff (channel note velocity : Nat)
  | notePressure (channel note pressure : Nat)
  | controller (channel controller value : Nat)
  | program (channel program : Nat)
  | channelPressure (channel pressure : Nat)
  | pitchBend (channel lsb msb : Nat)
  | sequenceNumber (n : Nat)
  | text (s : String)
  | copyright (s : String)
  | trackName (s : String)
  | instrumentName (s : String)
  | lyric (s : String)
  | marker (s : String)
  | cuePoint (s : String)
  | programName (s : String)
  | deviceName (s : String)
  | midiChanPfx (p : Nat)
  | midiPort (p : Nat)
  | endOfTrack
  | tempo (t : Nat)
  | smpteOffset (hours minutes seconds fps fractionalFrames : Nat)
  | timeSignature (numerator denominator clocksPerClick thirtySecond : Nat)
  | keySignature (flatsSharps majorMinor : Nat)
  | sequencer (data : List Nat)
  | sysEx (data : List Nat)
  | escapeSequence (data : List Nat)
deriving DecidableEq, Repr

/-- One decoded MIDI event: every Python event dataclass carries a
`delta_time` field plus its payload. -/
structure MEvent where
  delta_time : Nat
  body : EventBody
deriving DecidableEq, Repr

/-- Errors raised by the byte-level parser: `endOfData` models `struct.error`
on a short `mmap` read, `keyError k` models `KeyError(k)` from the
`meta_event_by_type` / `channel_event_by_status` dictionary lookups, and
`attributeError` models the `AttributeError` raised when
`parse_state.runningStatus` is read before it was ever assigned (the
dataclass declares `running_status`, but `parse_event` uses the attribute
name `runningStatus`). -/
inductive ParseError where
  | endOfData
  | keyError (k : Nat)
  | attributeError
deriving DecidableEq, Repr

/-- Reads one byte, like `struct.unpack("B", memory_map.read(1))`. -/
def read1 : List Nat → Except ParseError (Nat × List Nat)
  | [] => .error .endOfData
  | b :: rest => .ok (b, rest)

/-- Reads `n` bytes, like `memory_map.read(n)` followed by a fixed-size
`struct.unpack`, which raises on a short read. -/
def readN (n : Nat) (bs : List Nat) : Except ParseError (List Nat × List Nat) :=
  if n ≤ bs.length then .ok (bs.take n, bs.drop n) else .error .endOfData

/-- `bytes.decode("latin-1")`: each byte maps to the Unicode code point of
the same value. -/
def latin1 (bs : List Nat) : String :=
  String.mk (bs.map Char.ofNat)

/-- Loop body of `unpack_vlq`: `total = (total << 7) + (char & 0x7F)`,
continuing while `char & 0x80` is set. -/
def unpack_vlq_aux : List Nat → Nat → Except ParseError (Nat × List Nat)
  | [], _ => .error .endOfData
  | b :: rest, total =>
    let total := total * 128 + (b &&& 0x7F)
    if b &&& 0x80 == 0 then .ok (total, rest)
    else unpack_vlq_aux rest total

/-- `unpack_vlq(memory_map)`. -/
def unpack_vlq (bs : List Nat) : Except ParseError (Nat × List Nat) :=
  unpack_vlq_aux bs 0

/-- `parse_channel_event(delta_time, status, memory_map)`: dispatch on
`status & 0xF0` through `channel_event_by_status`, reading the fixed data
bytes of each event kind; a `NoteOnEvent` with velocity 0 is turned into a
`NoteOffEvent` with velocity 0.  An unknown high nibble raises
`KeyError(status & 0xF0)`. -/
def parse_channel_event (delta_time status : Nat) (bs : List Nat) :
    Except ParseError (MEvent × List Nat) :=
  let channel := status &&& 0xF
  if status &&& 0xF0 == 0x80 then
    match bs with
    | note :: velocity :: rest => .ok (⟨delta_time, .noteOff channel note velocity⟩, rest)
    | _ => .error .endOfData
  else if status &&& 0xF0 == 0x90 then
    match bs with
    | note :: velocity :: rest =>
      if velocity == 0 then .ok (⟨delta_time, .noteOff channel note 0⟩, rest)
      else .ok (⟨delta_time, .noteOn channel note velocity⟩, rest)
    | _ => .error .endOfData
  else if status &&& 0xF0 == 0xA0 then
    match bs with
    | note :: pressure :: rest => .ok (⟨delta_time, .notePressure channel note pressure⟩, rest)
    | _ => .error .endOfData
  else if status &&& 0xF0 == 0xB0 then
    match bs with
    | controller :: value :: rest => .ok (⟨delta_time, .controller channel controller value⟩, rest)
    | _ => .error .endOfData
  else if status &&& 0xF0 == 0xC0 then
    match bs with
    | program :: rest => .ok (⟨delta_time, .program channel program⟩, rest)
    | _ => .error .endOfData
  else if status &&& 0xF0 == 0xD0 then
    match bs with
    | pressure :: rest => .ok (⟨delta_time, .channelPressure channel pressure⟩, rest)
    | _ => .error .endOfData
  else if status &&& 0xF0 == 0xE0 then
    match bs with
    | lsb :: msb :: rest => .ok (⟨delta_time, .pitchBend channel lsb msb⟩, rest)
    | _ => .error .endOfData
  else .error (.keyError (status &&& 0xF0))

/-- `parse_meta_event(delta_time, memory_map)`: reads the meta type byte and
the variable-length payload length, then dispatches through
`meta_event_by_type`; an unknown type byte raises `KeyError(event_type)`.
Fixed-size meta events read their documented byte counts (ignoring the
declared length, exactly as the source's `from_memory_map` methods do). -/
def parse_meta_event (delta_time : Nat) (bs : List Nat) :
    Except ParseError (MEvent × List Nat) :=
  match read1 bs with
  | .error e => .error e
  | .ok (event_type, bs) =>
    match unpack_vlq bs with
    | .error e => .error e
    | .ok (length, bs) =>
      if event_type == 0x00 then
        match bs with
        | b1 :: b2 :: rest => .ok (⟨delta_time, .sequenceNumber (b1 * 256 + b2)⟩, rest)
        | _ => .error .endOfData
      else if event_type == 0x01 then
        match readN length bs with
        | .error e => .error e
        | .ok (payload, rest) => .ok (⟨delta_time, .text (latin1 payload)⟩, rest)
      else if event_type == 0x02 then
        match readN length bs with
        | .error e => .error e
        | .ok (payload, rest) => .ok (⟨delta_time, .copyright (latin1 payload)⟩, rest)
      else if event_type == 0x03 then
        match readN length bs with
        | .error e => .error e
        | .ok (payload, rest) => .ok (⟨delta_time, .trackName (latin1 payload)⟩, rest)
      else if event_type == 0x04 then
        match readN length bs with
        | .error e => .error e
        | .ok (payload, rest) => .ok (⟨delta_time, .instrumentName (latin1 payload)⟩, rest)
      else if event_type == 0x05 then
        match readN length bs with
        | .error e => .error e
        | .ok (payload, rest) => .ok (⟨delta_time, .lyric (latin1 payload)⟩, rest)
      else if event_type == 0x06 then
        match readN length bs with
        | .error e => .error e
        | .ok (payload, rest) => .ok (⟨delta_time, .marker (latin1 payload)⟩, rest)
      else if event_type == 0x07 then
        match readN length bs with
        | .error e => .error e
        | .ok (payload, rest) => .ok (⟨delta_time, .cuePoint (latin1 payload)⟩, rest)
      else if event_type == 0x08 then
        match readN length bs with
        | .error e => .error e
        | .ok (payload, rest) => .ok (⟨delta_time, .programName (latin1 payload)⟩, rest)
      else if event_type == 0x09 then
        match readN length bs with
        | .error e => .error e
        | .ok (payload, rest) => .ok (⟨delta_time, .deviceName (latin1 payload)⟩, rest)
      else if event_type == 0x20 then
        match bs with
        | p :: rest => .ok (⟨delta_time, .midiChanPfx p⟩, rest)
        | _ => .error .endOfData
      else if event_type == 0x21 then
        match bs with
        | p :: rest => .ok (⟨delta_time, .midiPort p⟩, rest)
        | _ => .error .endOfData
      else if event_type == 0x2F then .ok (⟨delta_time, .endOfTrack⟩, bs)
      else if event_type == 0x51 then
        match bs with
        | b0 :: b1 :: b2 :: rest =>
          .ok (⟨delta_time, .tempo (b0 * 65536 + b1 * 256 + b2)⟩, rest)
        | _ => .error .endOfData
      else if event_type == 0x54 then
        match bs with
        | h :: m :: s :: fp :: ff :: rest =>
          .ok (⟨delta_time, .smpteOffset h m s fp ff⟩, rest)
        | _ => .error .endOfData
      else if event_type == 0x58 then
        match bs with
        | nu :: de :: cl :: th :: rest =>
          .ok (⟨delta_time, .timeSignature nu de cl th⟩, rest)
        | _ => .error .endOfData
      else if event_type == 0x59 then
        match bs with
        | fs :: mm :: rest => .ok (⟨delta_time, .keySignature fs mm⟩, rest)
        | _ => .error .endOfData
      else if event_type == 0x7F then
        match readN length bs with
        | .error e => .error e
        | .ok (payload, rest) => .ok (⟨delta_time, .sequencer payload⟩, rest)
      else .error (.keyError event_type)

/-- `parse_sys_ex_event(delta_time, status, memory_map)`. -/
def parse_sys_ex_event (delta_time status : Nat) (bs : List Nat) :
    Except ParseError (Option MEvent × List Nat) :=
  match unpack_vlq bs with
  | .error e => .error e
  | .ok (length, bs) =>
    if status == 0xF0 then
      match readN length bs with
      | .error e => .error e
      | .ok (payload, rest) => .ok (some ⟨delta_time, .sysEx payload⟩, rest)
    else if status == 0xF7 then
      match readN length bs with
      | .error e => .error e
      | .ok (payload, rest) => .ok (some ⟨delta_time, .escapeSequence payload⟩, rest)
    else .ok (none, bs)

/-- `parse_event(memory_map, parse_state)`.  The running status is an
`Option Nat`: `none` models a `MidiParseState` whose `runningStatus`
attribute was never assigned (the source assigns `runningStatus`, while the
dataclass field is spelled `running_status`, so the attribute only exists
after the first status byte whose high bit is set).  Rewinding the cursor by
one byte is modelled by continuing with the byte list as it was before the
status byte was consumed. -/
def parse_event (bs : List Nat) (runningStatus : Option Nat) :
    Except ParseError (Option MEvent × List Nat × Option Nat) :=
  match unpack_vlq bs with
  | .error e => .error e
  | .ok (delta_time, bs1) =>
    match read1 bs1 with
    | .error e => .error e
    | .ok (status, bs2) =>
      let rs : Option Nat := if status &&& 0x80 != 0 then some status else runningStatus
      let bs3 : List Nat := if status &&& 0x80 != 0 then bs2 else bs1
      match rs with
      | none => .error .attributeError
      | some running_status =>
        if running_status == 0xFF then
          match parse_meta_event delta_time bs3 with
          | .error e => .error e
          | .ok (e, rest) => .ok (some e, rest, rs)
        else if running_status == 0xF0 || running_status == 0xF7 then
          match parse_sys_ex_event delta_time running_status bs3 with
          | .error e => .error e
          | .ok (oe, rest) => .ok (oe, rest, rs)
        else if 0x80 ≤ running_status then
          match parse_channel_event delta_time running_status bs3 with
          | .error e => .error e
          | .ok (e, rest) => .ok (some e, rest, rs)
        else .ok (none, bs3, rs)

/-- `TempoEventRecord(time_in_ticks, time_in_seconds, tempo)`. -/
structure TempoEventRecord where
  time_in_ticks : Nat
  time_in_seconds : ℚ
  tempo : Nat
deriving DecidableEq, Repr

/-- The synthetic fallback record `TempoEventRecord(0, 0, 500_000)`. -/
def default_tempo_record : TempoEventRecord := ⟨0, 0, 500000⟩

/-- `next(filter(match_function, reversed(tempo_events)), TempoEventRecord(0, 0, 500_000))`:
the last record of the list whose tick position is at most `t`, defaulting to
the synthetic record. -/
def findTempoEvent (tempo_events : List TempoEventRecord) (t : Nat) : TempoEventRecord :=
  (tempo_events.reverse.find? (fun e => decide (e.time_in_ticks ≤ t))).getD default_tempo_record

/-- Core arithmetic of `TempoMap.time_in_ticks_to_seconds` on a given record
list. -/
def tick_seconds (ppqn : Nat) (tempo_events : List TempoEventRecord) (t : Nat) : ℚ :=
  let r := findTempoEvent tempo_events t
  let microseconds_per_tick : ℚ := (r.tempo : ℚ) / (ppqn : ℚ)
  let seconds_per_tick : ℚ := microseconds_per_tick / 1000000
  r.time_in_seconds + ((t : ℚ) - (r.time_in_ticks : ℚ)) * seconds_per_tick

/-- Runtime errors of the tempo-map / note-assembly pass: Python `KeyError`
(dictionary subscript on a missing key) and `IndexError` (list subscript out
of range). -/
inductive PyError where
  | keyError
  | indexError
deriving DecidableEq, Repr

/-- `track_index if self.midi_format != 1 else 0`. -/
def govIndex (midi_format track_index : Nat) : Nat :=
  if midi_format != 1 then track_index else 0

/-- `TempoMap.time_in_ticks_to_seconds(track_index, time_in_ticks)`:
`self.tempo_tracks[track_index]` raises `IndexError` when the index is out
of range. -/
def time_in_ticks_to_seconds (midi_format ppqn : Nat)
    (tempo_tracks : List (List TempoEventRecord)) (track_index time_in_ticks : Nat) :
    Except PyError ℚ :=
  match tempo_tracks.get? (govIndex midi_format track_index) with
  | none => .error .indexError
  | some tempo_events => .ok (tick_seconds ppqn tempo_events time_in_ticks)

/-- Inner event loop of `TempoMap.compute_tempo_tracks` for one track:
accumulate ticks, convert to seconds with the records collected so far, and
append a `TempoEventRecord` for each `TempoEvent`. -/
def scanTempoEvents (midi_format ppqn track_index : Nat) :
    List MEvent → Nat → List (List TempoEventRecord) →
    Except PyError (List (List TempoEventRecord))
  | [], _, tts => .ok tts
  | e :: rest, ticks, tts =>
    let ticks := ticks + e.delta_time
    match time_in_ticks_to_seconds midi_format ppqn tts track_index ticks with
    | .error err => .error err
    | .ok secs =>
      match e.body with
      | .tempo tp =>
        scanTempoEvents midi_format ppqn track_index rest ticks
          (tts.set track_index (tts.getD track_index [] ++ [⟨ticks, secs, tp⟩]))
      | _ => scanTempoEvents midi_format ppqn track_index rest ticks tts

/-- Outer track loop of `TempoMap.compute_tempo_tracks`: the alias
`tempo_events = self.tempo_tracks[track_index]` raises `IndexError` when
`track_index` is out of range of the record-list list. -/
def computeTempoLoop (midi_format ppqn : Nat) :
    List (List MEvent) → Nat → List (List TempoEventRecord) →
    Except PyError (List (List TempoEventRecord))
  | [], _, tts => .ok tts
  | track :: rest, track_index, tts =>
    if track_index < tts.length then
      match scanTempoEvents midi_format ppqn track_index track 0 tts with
      | .error e => .error e
      | .ok tts' => computeTempoLoop midi_format ppqn rest (track_index + 1) tts'
    else .error .indexError

/-- `TempoMap.compute_tempo_tracks`.  The source initialises
`self.tempo_tracks = [[] * len(tracks)]`; since `[] * n` is `[]`, this is
the one-element list `[[]]` whatever the track count is, and that is what
the embedding starts from. -/
def compute_tempo_tracks (midi_format ppqn : Nat) (tracks : List (List MEvent)) :
    Except PyError (List (List TempoEventRecord)) :=
  let tracks := if midi_format == 1 then tracks.take 1 else tracks
  computeTempoLoop midi_format ppqn tracks 0 [[]]

/-- `NoteOnRecord(ticks, time, velocity, number_of_notes)`. -/
structure NoteOnRecord where
  ticks : Nat
  time : ℚ
  velocity : ℚ
  number_of_notes : Nat
deriving DecidableEq, Repr

/-- Keys of the pending-note table: `(event.channel, event.note)`. -/
abbrev NoteKey := Nat × Nat

/-- `TrackState`: current tick/second position and the pending-note table.
The Python `dict` is embedded as an insertion-ordered association list whose
keys stay pairwise distinct (lookups take the first hit, updates rewrite the
matching entry, deletion drops it). -/
structure TrackState where
  time_in_ticks : Nat
  time_in_seconds : ℚ
  note_on_table : List (NoteKey × NoteOnRecord)
deriving DecidableEq, Repr

/-- Dictionary lookup `self.note_on_table.get(key)`. -/
def tableFind (t : List (NoteKey × NoteOnRecord)) (k : NoteKey) : Option NoteOnRecord :=
  (t.find? (fun kv => kv.1 == k)).map (·.2)

/-- `TrackState.record_note_on(event)`: increment the stacked-press counter
of an existing entry, or insert a fresh record with the current position and
the velocity normalised by 127. -/
def record_note_on (ts : TrackState) (channel note velocity : Nat) : TrackState :=
  let key : NoteKey := (channel, note)
  match tableFind ts.note_on_table key with
  | some _ =>
    { ts with note_on_table :=
        ts.note_on_table.map (fun kv =>
          if kv.1 == key then (kv.1, { kv.2 with number_of_notes := kv.2.number_of_notes + 1 })
          else kv) }
  | none =>
    { ts with note_on_table :=
        ts.note_on_table ++
          [(key, ⟨ts.time_in_ticks, ts.time_in_seconds, (velocity : ℚ) / 127, 1⟩)] }

/-- `TrackState.get_corresponding_note_on_record(event)`: the source
subscripts `self.note_on_table[key]` directly, so a missing key raises
`KeyError`; a counter of 1 removes the entry and returns it, otherwise the
counter is decremented and `None` is returned. -/
def get_corresponding_note_on_record (ts : TrackState) (channel note : Nat) :
    Except PyError (Option NoteOnRecord × TrackState) :=
  let key : NoteKey := (channel, note)
  match tableFind ts.note_on_table key with
  | none => .error .keyError
  | some r =>
    if r.number_of_notes == 1 then
      .ok (some r, { ts with note_on_table := ts.note_on_table.filter (fun kv => kv.1 != key) })
    else
      .ok (none, { ts with note_on_table :=
        ts.note_on_table.map (fun kv =>
          if kv.1 == key then (kv.1, { kv.2 with number_of_notes := kv.2.number_of_notes - 1 })
          else kv) })

/-- `MIDINote`. -/
structure MIDINote where
  channel : Nat
  note_number : Nat
  time_on : ℚ
  time_off : ℚ
  velocity : ℚ
deriving DecidableEq, Repr

/-- `MIDITrack` (the output track record of `read_midi_file`).  The
`min_velo`/`max_velo` fields are rationals because the format-0 channel
split stores normalised note velocities in them. -/
structure MIDITrack where
  name : String
  index : Nat
  min_note : Nat
  max_note : Nat
  min_velo : ℚ
  max_velo : ℚ
  notes : List MIDINote
  notes_used : List Nat
deriving DecidableEq, Repr

/-- Per-track mutable state of the assembly loop in `read_midi_file`. -/
structure AsmState where
  notes : List MIDINote
  notes_used : List Nat
  track_name : String
  ts : TrackState
  min_note : Nat
  max_note : Nat
  min_velo : ℚ
  max_velo : ℚ
  min_duration_in_ticks : Int
deriving DecidableEq, Repr

/-- Initial per-track assembly state (`min_note = 1000`, `max_note = 0`,
`min_velo = 127`, `max_velo = 0`, `min_duration_in_ticks = 1000000`). -/
def initAsmState : AsmState := ⟨[], [], "", ⟨0, 0, []⟩, 1000, 0, 127, 0, 1000000⟩

/-- One iteration of the event loop of `read_midi_file`: update the clock,
then dispatch on `TrackNameEvent` / `NoteOnEvent` / `NoteOffEvent` (all other
events only advance the clock). -/
def assembleStep (midi_format ppqn : Nat) (tts : List (List TempoEventRecord))
    (track_index : Nat) (st : AsmState) (e : MEvent) : Except PyError AsmState :=
  let ticks := st.ts.time_in_ticks + e.delta_time
  match time_in_ticks_to_seconds midi_format ppqn tts track_index ticks with
  | .error err => .error err
  | .ok secs =>
    let st := { st with ts := { st.ts with time_in_ticks := ticks, time_in_seconds := secs } }
    match e.body with
    | .trackName s => .ok { st with track_name := s }
    | .noteOn ch note vel =>
      .ok { st with
        ts := record_note_on st.ts ch note vel,
        min_note := min st.min_note note,
        max_note := max st.max_note note,
        min_velo := min st.min_velo (vel : ℚ),
        max_velo := max st.max_velo (vel : ℚ),
        notes_used := if note ∈ st.notes_used then st.notes_used else st.notes_used ++ [note] }
    | .noteOff ch note _ =>
      match get_corresponding_note_on_record st.ts ch note with
      | .error err => .error err
      | .ok (none, ts') => .ok { st with ts := ts' }
      | .ok (some r, ts') =>
        .ok { st with
          ts := ts',
          notes := st.notes ++ [⟨ch, note, r.time, secs, r.velocity⟩],
          min_duration_in_ticks :=
            min st.min_duration_in_ticks ((ticks : Int) - (r.ticks : Int)) }
    | _ => .ok st

/-- The event loop of `read_midi_file` over one track. -/
def assembleEvents (midi_format ppqn : Nat) (tts : List (List TempoEventRecord))
    (track_index : Nat) : List MEvent → AsmState → Except PyError AsmState
  | [], st => .ok st
  | e :: rest, st =>
    match assembleStep midi_format ppqn tts track_index st e with
    | .error err => .error err
    | .ok st' => assembleEvents midi_format ppqn tts track_index rest st'

/-- The `MIDITrack` appended to `working_tracks` for a finished track. -/
def mkWorkingTrack (a : AsmState) (track_index_used : Nat) : MIDITrack :=
  ⟨a.track_name, track_index_used, a.min_note, a.max_note, a.min_velo, a.max_velo,
   a.notes, a.notes_used⟩

/-- The track loop of `read_midi_file`: a track is appended to
`working_tracks` (and the dense index advanced) only when its
`notes_used` list is non-empty. -/
def assembleTracksLoop (midi_format ppqn : Nat) (tts : List (List TempoEventRecord)) :
    List (List MEvent) → Nat → Nat → List MIDITrack → Except PyError (List MIDITrack)
  | [], _, _, acc => .ok acc
  | track :: rest, track_index, track_index_used, acc =>
    match assembleEvents midi_format ppqn tts track_index track initAsmState with
    | .error err => .error err
    | .ok a =>
      if a.notes_used.isEmpty then
        assembleTracksLoop midi_format ppqn tts rest (track_index + 1) track_index_used acc
      else
        assembleTracksLoop midi_format ppqn tts rest (track_index + 1) (track_index_used + 1)
          (acc ++ [mkWorkingTrack a track_index_used])

/-- Per-channel accumulator of the format-0 split. -/
structure ChanAcc where
  notes : List MIDINote
  notes_used : List Nat
  min_note : Nat
  max_note : Nat
  min_velo : ℚ
  max_velo : ℚ
deriving DecidableEq, Repr

/-- Inner loop of the format-0 split: collect the notes of one channel and
accumulate min/max statistics; note that `min_velo`/`max_velo` are folded
over `note.velocity`, the stored (normalised) velocity of the note. -/
def splitChannelLoop (channel : Nat) : List MIDINote → ChanAcc → ChanAcc
  | [], acc => acc
  | n :: rest, acc =>
    if n.channel == channel then
      splitChannelLoop channel rest
        ⟨acc.notes ++ [n],
         if n.note_number ∈ acc.notes_used then acc.notes_used
         else acc.notes_used ++ [n.note_number],
         min acc.min_note n.note_number, max acc.max_note n.note_number,
         min acc.min_velo n.velocity, max acc.max_velo n.velocity⟩
    else splitChannelLoop channel rest acc

/-- Initial per-channel accumulator (`min_note = 1000`, `max_note = 0`,
`min_velo = 127`, `max_velo = 0`). -/
def initChanAcc : ChanAcc := ⟨[], [], 1000, 0, 127, 0⟩

/-- Outer loop of the format-0 split over `range(16)`: channels with an
empty `notes_used` list are skipped, the rest receive dense indices and the
name `f"{working_tracks[0].name}-ch{channel}"`. -/
def channelSplitLoop (name : String) (allNotes : List MIDINote) :
    List Nat → Nat → List MIDITrack → List MIDITrack
  | [], _, acc => acc
  | c :: cs, track_index_used, acc =>
    let a := splitChannelLoop c allNotes initChanAcc
    if a.notes_used.isEmpty then channelSplitLoop name allNotes cs track_index_used acc
    else
      channelSplitLoop name allNotes cs (track_index_used + 1)
        (acc ++ [⟨name ++ "-ch" ++ toString c, track_index_used,
                 a.min_note, a.max_note, a.min_velo, a.max_velo, a.notes, a.notes_used⟩])

/-- A parsed `MIDIFile` as handed to `read_midi_file` (format, ppqn and the
decoded event lists of its tracks; the mutable `tempo` field is returned by
`read_midi_file` instead of being stored). -/
structure MIDIFile where
  midi_format : Nat
  ppqn : Nat
  tracks : List (List MEvent)
deriving DecidableEq, Repr

/-- `read_midi_file(path)` after the file has been parsed: build the tempo
map, pick the nominal tempo (`tempo_map.tempo_tracks[0][0].tempo` when
exactly one record list exists — an `IndexError` when that list is empty —
and the sentinel `0` otherwise), assemble every track, and for format 0
split `working_tracks[0]` by channel (an `IndexError` when `working_tracks`
is empty).  Returns `(tempo, tempo_tracks, tracks)`. -/
def read_midi_file (f : MIDIFile) :
    Except PyError (Nat × List (List TempoEventRecord) × List MIDITrack) :=
  match compute_tempo_tracks f.midi_format f.ppqn f.tracks with
  | .error e => .error e
  | .ok tts =>
    let tempoE : Except PyError Nat :=
      if tts.length == 1 then
        match (tts.getD 0 []).head? with
        | some r => .ok r.tempo
        | none => .error .indexError
      else .ok 0
    match tempoE with
    | .error e => .error e
    | .ok tempo =>
      let file_tracks := if f.midi_format != 1 then f.tracks else f.tracks.drop 1
      match assembleTracksLoop f.midi_format f.ppqn tts file_tracks 0 0 [] with
      | .error e => .error e
      | .ok working_tracks =>
        if f.midi_format == 0 then
          match working_tracks.head? with
          | none => .error .indexError
          | some t0 =>
            .ok (tempo, tts, channelSplitLoop t0.name t0.notes (List.range 16) 0 [])
        else .ok (tempo, tts, working_tracks)

/-- Whether an event is a note event (NoteOn or NoteOff) on the given
(channel, pitch) key. -/
def isKeyNote (ch p : Nat) (e : MEvent) : Bool :=
  match e.body with
  | .noteOn c n _ => c == ch && n == p
  | .noteOff c n _ => c == ch && n == p
  | _ => false

/-- The notes of a list lying on the given (channel, pitch) key. -/
def notesAt (ch p : Nat) (ns : List MIDINote) : List MIDINote :=
  ns.filter (fun n => n.channel == ch && n.note_number == p)

/-- Total delta time of a list of events. -/
def sumDelta (evs : List MEvent) : Nat :=
  (evs.map (·.delta_time)).sum

/-- The tempo-record list governing a track (`[]` when the index is out of
range). -/
def govList (midi_format track_index : Nat) (tts : List (List TempoEventRecord)) :
    List TempoEventRecord :=
  tts.getD (govIndex midi_format track_index) []

/-- Whether an event is a NoteOn event. -/
def isNoteOn (e : MEvent) : Bool :=
  match e.body with
  | .noteOn _ _ _ => true
  | _ => false

/-- Whether an event is a NoteOff event. -/
def isNoteOff (e : MEvent) : Bool :=
  match e.body with
  | .noteOff _ _ _ => true
  | _ => false

/-- The notes of a list lying on one channel (specification-side view of the
format-0 split). -/
def chanFilter (c : Nat) (ns : List MIDINote) : List MIDINote :=
  ns.filter (fun n => n.channel == c)

/-- One step of the used-pitch accumulation: append the pitch unless already
present. -/
def pitchStep (acc : List Nat) (n : MIDINote) : List Nat :=
  if n.note_number ∈ acc then acc else acc ++ [n.note_number]

/-- The distinct pitches of a note list in first-encounter order. -/
def dedupPitches (ns : List MIDINote) : List Nat :=
  ns.foldl pitchStep []

/-- Minimum pitch of a note list, starting from the accumulator 1000. -/
def minPitch (ns : List MIDINote) : Nat :=
  ns.foldl (fun m n => min m n.note_number) 1000

/-- Maximum pitch of a note list, starting from the accumulator 0. -/
def maxPitch (ns : List MIDINote) : Nat :=
  ns.foldl (fun m n => max m n.note_number) 0

/-- Minimum stored velocity of a note list, starting from the accumulator
127. -/
def minVeloOf (ns : List MIDINote) : ℚ :=
  ns.foldl (fun m n => min m n.velocity) 127

/-- Maximum stored velocity of a note list, starting from the accumulator
0. -/
def maxVeloOf (ns : List MIDINote) : ℚ :=
  ns.foldl (fun m n => max m n.velocity) 0

/-- The output track the format-0 split produces for channel `c` at dense
index `idx` (specification-side view). -/
def chanTrack (name : String) (allNotes : List MIDINote) (c idx : Nat) : MIDITrack :=
  ⟨name ++ "-ch" ++ toString c, idx,
   minPitch (chanFilter c allNotes), maxPitch (chanFilter c allNotes),
   minVeloOf (chanFilter c allNotes), maxVeloOf (chanFilter c allNotes),
   chanFilter c allNotes, dedupPitches (chanFilter c allNotes)⟩

/-! Helper lemmas. -/

theorem scanTempoEvents_length (midi_format ppqn track_index : Nat) :
    ∀ (evs : List MEvent) (ticks : Nat) (tts tts' : List (List TempoEventRecord)),
      scanTempoEvents midi_format ppqn track_index evs ticks tts = .ok tts' →
      tts'.length = tts.length := by
  intro evs
  induction evs with
  | nil => intro ticks tts tts' h; simp only [scanTempoEvents] at h; cases h; rfl
  | cons e rest ih =>
    intro ticks tts tts' h
    simp only [scanTempoEvents] at h
    split at h
    · cases h
    · split at h
      · have := ih _ _ _ h
        simpa [List.length_set] using this
      all_goals exact ih _ _ _ h

theorem computeTempoLoop_length (midi_format ppqn : Nat) :
    ∀ (tracks : List (List MEvent)) (i : Nat) (tts tts' : List (List TempoEventRecord)),
      computeTempoLoop midi_format ppqn tracks i tts = .ok tts' →
      tts'.length = tts.length := by
  intro tracks
  induction tracks with
  | nil => intro i tts tts' h; simp only [computeTempoLoop] at h; cases h; rfl
  | cons t rest ih =>
    intro i tts tts' h
    simp only [computeTempoLoop] at h
    split at h
    · split at h
      · cases h
      · rename_i tts'' heq
        exact (ih _ _ _ h).trans (scanTempoEvents_length _ _ _ _ _ _ _ heq)
    · cases h

theorem compute_tempo_tracks_length (midi_format ppqn : Nat) (tracks : List (List MEvent))
    (tts : List (List TempoEventRecord))
    (h : compute_tempo_tracks midi_format ppqn tracks = .ok tts) : tts.length = 1 := by
  simp only [compute_tempo_tracks] at h
  exact computeTempoLoop_length _ _ _ _ _ _ h

theorem govIndex_zero (midi_format : Nat) : govIndex midi_format 0 = 0 := by
  simp [govIndex]

theorem scanTempoEvents_zero_ok (midi_format ppqn : Nat) :
    ∀ (evs : List MEvent) (ticks : Nat) (tts : List (List TempoEventRecord)),
      0 < tts.length →
      ∃ tts', scanTempoEvents midi_format ppqn 0 evs ticks tts = .ok tts' ∧
        tts'.length = tts.length := by
  intro evs
  induction evs with
  | nil => intro ticks tts h; exact ⟨tts, rfl, rfl⟩
  | cons e rest ih =>
    intro ticks tts hlen
    have hget : ∃ l, tts.get? (govIndex midi_format 0) = some l := by
      rw [govIndex_zero]
      exact ⟨tts.get ⟨0, hlen⟩, List.get?_eq_get hlen⟩
    obtain ⟨l, hget⟩ := hget
    simp only [scanTempoEvents, time_in_ticks_to_seconds, hget]
    match hb : e.body with
    | .tempo tp =>
      have hlen' : 0 < (tts.set 0 (tts.getD 0 [] ++
          [⟨ticks + e.delta_time, tick_seconds ppqn l (ticks + e.delta_time), tp⟩])).length := by
        simpa using hlen
      obtain ⟨tts', h1, h2⟩ := ih (ticks + e.delta_time) _ hlen'
      exact ⟨tts', h1, by simpa using h2⟩
    | .noteOn a b c => exact ih _ _ hlen
    | .noteOff a b c => exact ih _ _ hlen
    | .notePressure a b c => exact ih _ _ hlen
    | .controller a b c => exact ih _ _ hlen
    | .program a b => exact ih _ _ hlen
    | .channelPressure a b => exact ih _ _ hlen
    | .pitchBend a b c => exact ih _ _ hlen
    | .sequenceNumber a => exact ih _ _ hlen
    | .text a => exact ih _ _ hlen
    | .copyright a => exact ih _ _ hlen
    | .trackName a => exact ih _ _ hlen
    | .instrumentName a => exact ih _ _ hlen
    | .lyric a => exact ih _ _ hlen
    | .marker a => exact ih _ _ hlen
    | .cuePoint a => exact ih _ _ hlen
    | .programName a => exact ih _ _ hlen
    | .deviceName a => exact ih _ _ hlen
    | .midiChanPfx a => exact ih _ _ hlen
    | .midiPort a => exact ih _ _ hlen
    | .endOfTrack => exact ih _ _ hlen
    | .smpteOffset a b c d f => exact ih _ _ hlen
    | .timeSignature a b c d => exact ih _ _ hlen
    | .keySignature a b => exact ih _ _ hlen
    | .sequencer a => exact ih _ _ hlen
    | .sysEx a => exact ih _ _ hlen
    | .escapeSequence a => exact ih _ _ hlen

theorem compute_tempo_tracks_single_ok (midi_format ppqn : Nat) (events : List MEvent) :
    ∃ tts, compute_tempo_tracks midi_format ppqn [events] = .ok tts ∧ tts.length = 1 := by
  obtain ⟨tts', h1, h2⟩ :=
    scanTempoEvents_zero_ok midi_format ppqn events 0 [[]] (by simp)
  refine ⟨tts', ?_, by simpa using h2⟩
  simp only [compute_tempo_tracks]
  have : (if midi_format == 1 then [events].take 1 else [events]) = [events] := by
    split <;> rfl
  rw [this]
  simp only [computeTempoLoop, List.length_singleton, Nat.lt_irrefl, h1]
  simp [h1]

/-! Claim theorems. -/

/-- C8 counterexample: decoding the raw status byte `0xF4` does not fail
with an error carrying the offending byte value `0xF4`; the `KeyError`
carries the masked nibble `0xF0` instead (and no byte offset at all). -/
theorem parse_event_f4_key_error_masked :
    parse_event [0, 0xF4, 0, 0] none = .error (.keyError 0xF0) ∧ (0xF0 : Nat) ≠ 0xF4 := by
  exact ⟨rfl, by decide⟩

/-- C8 amended: a meta-event type byte outside `meta_event_by_type`, or a
status byte whose high nibble is outside `channel_event_by_status`, makes
decoding fail with a key-error carrying the unknown dictionary key (the meta
type byte, respectively the masked nibble `status & 0xF0`); no byte offset
is attached and no forward-skip recovery is attempted. -/
theorem parse_unknown_event_type_key_error :
    (∀ delta t bs len rest, unpack_vlq bs = .ok (len, rest) →
      t ∉ ([0x00, 0x01, 0x02, 0x03, 0x04, 0x05, 0x06, 0x07, 0x08, 0x09, 0x20, 0x21,
            0x2F, 0x51, 0x54, 0x58, 0x59, 0x7F] : List Nat) →
      parse_meta_event delta (t :: bs) = .error (.keyError t)) ∧
    (∀ delta status bs,
      (status &&& 0xF0) ∉ ([0x80, 0x90, 0xA0, 0xB0, 0xC0, 0xD0, 0xE0] : List Nat) →
      parse_channel_event delta status bs = .error (.keyError (status &&& 0xF0))) := by
  constructor
  · intro delta t bs len rest hv ht
    simp only [List.mem_cons, List.not_mem_nil, or_false, not_or] at ht
    obtain ⟨h0, h1, h2, h3, h4, h5, h6, h7, h8, h9, h20, h21, h2F, h51, h54, h58, h59, h7F⟩ := ht
    simp [parse_meta_event, read1, hv, h0, h1, h2, h3, h4, h5, h6, h7, h8, h9,
      h20, h21, h2F, h51, h54, h58, h59, h7F]
  · intro delta status bs ht
    simp only [List.mem_cons, List.not_mem_nil, or_false, not_or] at ht
    obtain ⟨h80, h90, hA0, hB0, hC0, hD0, hE0⟩ := ht
    simp [parse_channel_event, h80, h90, hA0, hB0, hC0, hD0, hE0]

/-- C8 amended, witness: the unknown meta type `0x60` and the unknown status
byte `0xF4`. -/
theorem parse_unknown_event_type_key_error_witness :
    parse_meta_event 0 [0x60, 0x00] = .error (.keyError 0x60) ∧
    parse_channel_event 0 0xF4 [] = .error (.keyError 0xF0) :=
  ⟨parse_unknown_event_type_key_error.1 0 0x60 [0x00] 0 [] rfl (by decide),
   parse_unknown_event_type_key_error.2 0 0xF4 [] (by decide)⟩

/-- C9: when a track's first event starts with a status byte whose high bit
is unset, `parse_event` fails with the attribute error on the never-assigned
`runningStatus` attribute rather than decoding with a default running
status; and an initial `parse_event` can only succeed when the first status
byte has its high bit set. -/
theorem parse_event_initial_running_status :
    (∀ (bs : List Nat) (d b : Nat) (rest : List Nat),
      unpack_vlq bs = .ok (d, b :: rest) → b &&& 0x80 = 0 →
      parse_event bs none = .error .attributeError) ∧
    (∀ (bs : List Nat) (r : Option MEvent × List Nat × Option Nat),
      parse_event bs none = .ok r →
      ∃ d b rest, unpack_vlq bs = .ok (d, b :: rest) ∧ b &&& 0x80 ≠ 0) := by
  constructor
  · intro bs d b rest hv hb
    simp [parse_event, hv, read1, hb]
  · intro bs r h
    rw [parse_event] at h
    cases hv : unpack_vlq bs with
    | error e => rw [hv] at h; cases h
    | ok pr =>
      obtain ⟨d, bs1⟩ := pr
      rw [hv] at h
      cases bs1 with
      | nil => simp [read1] at h
      | cons b rest =>
        by_cases hb : b &&& 0x80 = 0
        · simp [read1, hb] at h
        · exact ⟨d, b, rest, rfl, hb⟩

/-- C9 witness: the byte stream `[0x00, 0x42]` (delta time 0, then the data
byte `0x42`). -/
theorem parse_event_initial_running_status_witness :
    unpack_vlq [0, 0x42] = .ok (0, [0x42]) ∧ (0x42 &&& 0x80 : Nat) = 0 ∧
    parse_event [0, 0x42] none = .error .attributeError :=
  ⟨rfl, by decide,
   parse_event_initial_running_status.1 [0, 0x42] 0 0x42 [] rfl (by decide)⟩

/-- C3 (code bug): for a format-2 file with two tracks, `compute_tempo_tracks`
raises `IndexError` instead of producing one tempo-record list per track,
because `[[] * len(tracks)]` builds a single inner list. -/
theorem compute_tempo_tracks_two_tracks_index_error :
    compute_tempo_tracks 2 480 [[⟨0, .endOfTrack⟩], [⟨0, .endOfTrack⟩]] =
      .error .indexError := by
  norm_num [compute_tempo_tracks, computeTempoLoop, scanTempoEvents,
    time_in_ticks_to_seconds, govIndex, tick_seconds, findTempoEvent, default_tempo_record]

/-- C1 counterexample: a single-track format-2 file whose track holds a
Tempo event and an orphan NoteOff; `read_midi_file` fails with the key-error
from `self.note_on_table[key]` instead of ignoring the orphan release. -/
theorem read_midi_file_orphan_note_off_key_error :
    read_midi_file ⟨2, 480, [[⟨0, .tempo 500000⟩, ⟨0, .noteOff 0 60 0⟩,
        ⟨0, .endOfTrack⟩]]⟩ = .error .keyError := by
  norm_num [read_midi_file, compute_tempo_tracks, computeTempoLoop, scanTempoEvents,
    time_in_ticks_to_seconds, govIndex, tick_seconds, findTempoEvent, default_tempo_record,
    assembleTracksLoop, assembleEvents, assembleStep, record_note_on,
    get_corresponding_note_on_record, tableFind, initAsmState]

/-- C1 amended: when a NoteOff's (channel, pitch) key has no pending record,
`get_corresponding_note_on_record` raises a key-error (aborting the
assembly) instead of ignoring the event. -/
theorem get_corresponding_orphan_raises (ts : TrackState) (channel note : Nat)
    (h : tableFind ts.note_on_table (channel, note) = none) :
    get_corresponding_note_on_record ts channel note = .error .keyError := by
  simp [get_corresponding_note_on_record, h]

/-- C1 amended, witness: the empty pending-note table. -/
theorem get_corresponding_orphan_raises_witness :
    tableFind (TrackState.mk 0 0 []).note_on_table (0, 60) = none ∧
    get_corresponding_note_on_record ⟨0, 0, []⟩ 0 60 = .error .keyError :=
  ⟨rfl, get_corresponding_orphan_raises ⟨0, 0, []⟩ 0 60 rfl⟩

/-- C2 counterexample: a single-track format-2 file with no Tempo event:
the single tempo-record list is empty and `read_midi_file` fails with the
index error from `tempo_map.tempo_tracks[0][0]` instead of marking the file
with the sentinel. -/
theorem read_midi_file_no_tempo_event_index_error :
    read_midi_file ⟨2, 480, [[⟨0, .noteOn 0 60 64⟩, ⟨480, .noteOff 0 60 0⟩,
        ⟨0, .endOfTrack⟩]]⟩ = .error .indexError := by
  norm_num [read_midi_file, compute_tempo_tracks, computeTempoLoop, scanTempoEvents,
    time_in_ticks_to_seconds, govIndex, tick_seconds, findTempoEvent, default_tempo_record]

/-- C4 counterexample: a single-track format-2 file whose only note event is
one NoteOn that is never matched: the track produces zero notes but its
used-pitch set is `[60]`, so it is retained in the final output, not
excluded. -/
theorem read_midi_file_unmatched_note_on_retained :
    read_midi_file ⟨2, 480, [[⟨0, .tempo 500000⟩, ⟨0, .noteOn 0 60 64⟩,
        ⟨0, .endOfTrack⟩]]⟩ =
      .ok (500000, [[⟨0, 0, 500000⟩]], [⟨"", 0, 60, 60, 64, 64, [], [60]⟩]) ∧
    ([60] : List Nat) ≠ [] := by
  refine ⟨?_, by decide⟩
  norm_num [read_midi_file, compute_tempo_tracks, computeTempoLoop, scanTempoEvents,
    time_in_ticks_to_seconds, govIndex, tick_seconds, findTempoEvent, default_tempo_record,
    assembleTracksLoop, assembleEvents, assembleStep, record_note_on,
    get_corresponding_note_on_record, tableFind, initAsmState, mkWorkingTrack]

theorem find?_eq_getLast?_filter {α : Type} (p : α → Bool) :
    ∀ l : List α, l.reverse.find? p = (l.filter p).getLast? := by
  intro l
  induction l with
  | nil => rfl
  | cons a l ih =>
    rw [List.reverse_cons, List.find?_append, ih, List.filter_cons]
    by_cases hp : p a
    · simp only [hp, if_true, List.find?_cons, List.find?_nil]
      cases hfl : l.filter p with
      | nil => simp
      | cons x xs =>
        cases hgl : (x :: xs).getLast? with
        | none => simp at hgl
        | some v => simp [Option.or, List.getLast?_cons_cons, hgl]
    · simp [hp, List.find?_cons, List.find?_nil, Option.or_none]

/-- C5: on a governing track, tick-to-seconds conversion returns
`r.seconds + (T - r.tick) * ((r.tempo / ppqn) / 1_000_000)` where `r` is the
latest tempo record with tick position at most `T` (falling back to the
synthetic record (0, 0, 500000)); and appending a tempo change at tick `T`
never alters the conversion of any tick position strictly below `T`. -/
theorem time_in_ticks_to_seconds_formula :
    (∀ (midi_format ppqn : Nat) (tts : List (List TempoEventRecord)) (track_index t : Nat),
      govIndex midi_format track_index < tts.length →
      time_in_ticks_to_seconds midi_format ppqn tts track_index t =
        .ok (let r := ((govList midi_format track_index tts).filter
              (fun e => decide (e.time_in_ticks ≤ t))).getLast?.getD default_tempo_record
            r.time_in_seconds + ((t : ℚ) - (r.time_in_ticks : ℚ)) *
              ((r.tempo : ℚ) / (ppqn : ℚ) / 1000000))) ∧
    (∀ (ppqn : Nat) (l : List TempoEventRecord) (t : Nat) (s : ℚ) (tp t' : Nat), t' < t →
      tick_seconds ppqn (l ++ [⟨t, s, tp⟩]) t' = tick_seconds ppqn l t') := by
  constructor
  · intro midi_format ppqn tts track_index t h
    have hl : tts.get? (govIndex midi_format track_index) =
        some (tts.get ⟨govIndex midi_format track_index, h⟩) := List.get?_eq_get h
    have hgov : govList midi_format track_index tts =
        tts.get ⟨govIndex midi_format track_index, h⟩ := by
      simp [govList, List.getD_eq_getElem?_getD, ← List.get?_eq_getElem?, hl]
    simp only [time_in_ticks_to_seconds, hl, hgov, tick_seconds, findTempoEvent,
      find?_eq_getLast?_filter]
  · intro ppqn l t s tp t' h
    have hd : (decide (t ≤ t')) = false := by simp; omega
    simp only [tick_seconds, findTempoEvent, List.reverse_append, List.reverse_cons,
      List.reverse_nil, List.nil_append, List.singleton_append, List.find?_cons, hd]

/-- C5 witness: one tempo record (tick 0, tempo 600000) queried at tick 960
with ppqn 480; and a tempo change at tick 100 does not alter tick 50. -/
theorem time_in_ticks_to_seconds_formula_witness :
    time_in_ticks_to_seconds 0 480 [[⟨0, 0, 600000⟩]] 0 960 = .ok (6/5) ∧
    tick_seconds 480 ([⟨0, 0, 500000⟩] ++ [⟨100, 1, 250000⟩]) 50 =
      tick_seconds 480 [⟨0, 0, 500000⟩] 50 := by
  constructor
  · have h := time_in_ticks_to_seconds_formula.1 0 480 [[⟨0, 0, 600000⟩]] 0 960 (by decide)
    rw [h]
    norm_num [govList, govIndex, default_tempo_record]
  · exact time_in_ticks_to_seconds_formula.2 480 [⟨0, 0, 500000⟩] 100 1 250000 50 (by decide)

/-- C2 amended: whenever tempo-map construction succeeds there is exactly
one tempo-record list; when it is non-empty the nominal tempo of a
successful `read_midi_file` is its first record's tempo, but when it is
empty `read_midi_file` raises `IndexError` instead of marking the file with
the sentinel. -/
theorem read_midi_file_single_tempo (f : MIDIFile) (tts : List (List TempoEventRecord))
    (h : compute_tempo_tracks f.midi_format f.ppqn f.tracks = .ok tts) :
    tts.length = 1 ∧
    (tts.getD 0 [] = [] → read_midi_file f = .error .indexError) ∧
    (∀ r out, (tts.getD 0 []).head? = some r → read_midi_file f = .ok out →
      out.1 = r.tempo) := by
  have hlen := compute_tempo_tracks_length _ _ _ _ h
  obtain ⟨l, rfl⟩ := List.length_eq_one.mp hlen
  refine ⟨rfl, ?_, ?_⟩
  · intro hemp
    have hl : l = [] := by simpa using hemp
    subst hl
    simp [read_midi_file, h]
  · intro r out hr hread
    have hr' : l.head? = some r := by simpa using hr
    simp [read_midi_file, h, hr'] at hread
    split at hread
    · cases hread
    · split at hread
      · split at hread
        · cases hread
        · cases hread; rfl
      · cases hread; rfl

/-- C2 amended, witness: a single-track format-2 file with one Tempo event
(600000). -/
theorem read_midi_file_single_tempo_witness :
    compute_tempo_tracks 2 480 [[⟨0, .tempo 600000⟩, ⟨0, .endOfTrack⟩]] =
      .ok [[⟨0, 0, 600000⟩]] ∧
    ([[⟨0, 0, 600000⟩]] : List (List TempoEventRecord)).length = 1 := by
  have h : compute_tempo_tracks 2 480 [[⟨0, .tempo 600000⟩, ⟨0, .endOfTrack⟩]] =
      .ok [[⟨0, 0, 600000⟩]] := by
    norm_num [compute_tempo_tracks, computeTempoLoop, scanTempoEvents,
      time_in_ticks_to_seconds, govIndex, tick_seconds, findTempoEvent, default_tempo_record]
  exact ⟨h, (read_midi_file_single_tempo ⟨2, 480, _⟩ _ h).1⟩

theorem assembleStep_no_note_off (midi_format ppqn : Nat)
    (tts : List (List TempoEventRecord)) (track_index : Nat) (st st' : AsmState)
    (e : MEvent) (hoff : isNoteOff e = false)
    (h : assembleStep midi_format ppqn tts track_index st e = .ok st') :
    st'.notes = st.notes ∧
    (st'.notes_used = [] ↔ st.notes_used = [] ∧ isNoteOn e = false) := by
  obtain ⟨d, body⟩ := e
  simp only [assembleStep] at h
  split at h
  · cases h
  · cases body
    case noteOn ch note vel =>
      cases h
      refine ⟨rfl, ?_⟩
      simp only [isNoteOn, Bool.true_eq_false, and_false, iff_false]
      by_cases hm : note ∈ st.notes_used
      · rw [if_pos hm]
        intro hnil
        rw [hnil] at hm
        exact absurd hm (List.not_mem_nil note)
      · rw [if_neg hm]
        simp
    case noteOff ch note vel => simp [isNoteOff] at hoff
    all_goals (cases h; simp_all [isNoteOn, isNoteOff])

theorem assembleEvents_no_note_off (midi_format ppqn : Nat)
    (tts : List (List TempoEventRecord)) (track_index : Nat) :
    ∀ (evs : List MEvent) (st a : AsmState),
      (∀ e ∈ evs, isNoteOff e = false) →
      assembleEvents midi_format ppqn tts track_index evs st = .ok a →
      a.notes = st.notes ∧
      (a.notes_used = [] ↔ st.notes_used = [] ∧ ∀ e ∈ evs, isNoteOn e = false) := by
  intro evs
  induction evs with
  | nil => intro st a _ ha; simp only [assembleEvents] at ha; cases ha; simp
  | cons e rest ih =>
    intro st a h ha
    simp only [assembleEvents] at ha
    split at ha
    · cases ha
    · rename_i st' hstep
      have hstep' := assembleStep_no_note_off midi_format ppqn tts track_index st st' e
        (h e (List.mem_cons_self e rest)) hstep
      have hrest := ih st' a (fun x hx => h x (List.mem_cons_of_mem e hx)) ha
      refine ⟨hrest.1.trans hstep'.1, ?_⟩
      rw [hrest.2, hstep'.2]
      simp only [List.forall_mem_cons]
      tauto

/-- C4 amended: a track none of whose NoteOns is ever matched (no NoteOff
events at all) produces zero finalized notes, but its used-pitch set is
empty — and hence the track excluded from output — exactly when the track
has no NoteOn events; with NoteOns present the track is retained with an
empty note list. -/
theorem assemble_unmatched_note_ons (midi_format ppqn : Nat)
    (tts : List (List TempoEventRecord)) (track_index : Nat) (evs : List MEvent) (a : AsmState)
    (hoff : ∀ e ∈ evs, isNoteOff e = false)
    (h : assembleEvents midi_format ppqn tts track_index evs initAsmState = .ok a) :
    a.notes = [] ∧ (a.notes_used = [] ↔ ∀ e ∈ evs, isNoteOn e = false) := by
  have := assembleEvents_no_note_off midi_format ppqn tts track_index evs initAsmState a hoff h
  simpa [initAsmState] using this

/-- C4 amended, witness: a track with one Tempo event, one unmatched NoteOn
and the EndOfTrack marker. -/
theorem assemble_unmatched_note_ons_witness :
    (∀ e ∈ [(⟨0, .tempo 500000⟩ : MEvent), ⟨0, .noteOn 0 60 64⟩, ⟨0, .endOfTrack⟩],
      isNoteOff e = false) ∧
    (⟨[], [60], "", ⟨0, 0, [((0, 60), ⟨0, 0, 64/127, 1⟩)]⟩, 60, 60, 64, 64,
        1000000⟩ : AsmState).notes = [] ∧
    ((⟨[], [60], "", ⟨0, 0, [((0, 60), ⟨0, 0, 64/127, 1⟩)]⟩, 60, 60, 64, 64,
        1000000⟩ : AsmState).notes_used = [] ↔
      ∀ e ∈ [(⟨0, .tempo 500000⟩ : MEvent), ⟨0, .noteOn 0 60 64⟩, ⟨0, .endOfTrack⟩],
        isNoteOn e = false) := by
  have h : assembleEvents 2 480 [[]] 0
      [⟨0, .tempo 500000⟩, ⟨0, .noteOn 0 60 64⟩, ⟨0, .endOfTrack⟩] initAsmState =
      .ok ⟨[], [60], "", ⟨0, 0, [((0, 60), ⟨0, 0, 64/127, 1⟩)]⟩, 60, 60, 64, 64, 1000000⟩ := by
    norm_num [assembleEvents, assembleStep, time_in_ticks_to_seconds, govIndex, tick_seconds,
      findTempoEvent, default_tempo_record, record_note_on, tableFind, initAsmState]
  exact ⟨by decide, assemble_unmatched_note_ons 2 480 [[]] 0 _ _ (by decide) h⟩

theorem assembleEvents_no_note_on_used (midi_format ppqn : Nat)
    (tts : List (List TempoEventRecord)) (track_index : Nat) :
    ∀ (evs : List MEvent) (st a : AsmState),
      (∀ e ∈ evs, isNoteOn e = false) →
      assembleEvents midi_format ppqn tts track_index evs st = .ok a →
      a.notes_used = st.notes_used := by
  intro evs
  induction evs with
  | nil => intro st a _ ha; simp only [assembleEvents] at ha; cases ha; rfl
  | cons e rest ih =>
    intro st a h ha
    simp only [assembleEvents] at ha
    split at ha
    · cases ha
    · rename_i st' hstep
      have hon := h e (List.mem_cons_self e rest)
      have hused : st'.notes_used = st.notes_used := by
        obtain ⟨d, body⟩ := e
        simp only [assembleStep] at hstep
        split at hstep
        · cases hstep
        · cases body
          case noteOn ch note vel => simp [isNoteOn] at hon
          case noteOff ch note vel =>
            dsimp only at hstep
            split at hstep
            · cases hstep
            · cases hstep; rfl
            · cases hstep; rfl
          all_goals (cases hstep; rfl)
      exact (ih st' a (fun x hx => h x (List.mem_cons_of_mem e hx)) ha).trans hused

/-- C10 amended: a format-0 file whose single track has no NoteOn makes
`read_midi_file` fail (key-error on an orphan NoteOff reached during
assembly, index error otherwise) rather than return an empty track
sequence. -/
theorem read_midi_file_format0_no_note_on_fails (ppqn : Nat) (events : List MEvent)
    (h : ∀ e ∈ events, isNoteOn e = false) :
    ∃ err, read_midi_file ⟨0, ppqn, [events]⟩ = .error err := by
  obtain ⟨tts, hc, hlen⟩ := compute_tempo_tracks_single_ok 0 ppqn events
  obtain ⟨l, rfl⟩ := List.length_eq_one.mp hlen
  cases hhd : l.head? with
  | none => exact ⟨.indexError, by simp [read_midi_file, hc, hhd]⟩
  | some r =>
    cases hasm : assembleEvents 0 ppqn [l] 0 events initAsmState with
    | error err =>
      exact ⟨err, by simp [read_midi_file, hc, hhd, assembleTracksLoop, hasm]⟩
    | ok a =>
      have hused : a.notes_used = [] := by
        have := assembleEvents_no_note_on_used 0 ppqn [l] 0 events initAsmState a h hasm
        simpa [initAsmState] using this
      exact ⟨.indexError, by
        simp [read_midi_file, hc, hhd, assembleTracksLoop, hasm, hused]⟩

/-- C10 amended, witness: a single empty track (just EndOfTrack). -/
theorem read_midi_file_format0_no_note_on_fails_witness :
    (∀ e ∈ [(⟨0, .endOfTrack⟩ : MEvent)], isNoteOn e = false) ∧
    ∃ err, read_midi_file ⟨0, 480, [[⟨0, .endOfTrack⟩]]⟩ = .error err :=
  ⟨by decide, read_midi_file_format0_no_note_on_fails 480 [⟨0, .endOfTrack⟩] (by decide)⟩

theorem pitchStep_ne_nil (acc : List Nat) (n : MIDINote) : pitchStep acc n ≠ [] := by
  unfold pitchStep
  split
  · rename_i hm
    intro h
    rw [h] at hm
    exact absurd hm (List.not_mem_nil _)
  · simp

theorem foldl_pitchStep_eq_nil (l : List MIDINote) :
    ∀ acc, l.foldl pitchStep acc = [] ↔ l = [] ∧ acc = [] := by
  induction l with
  | nil => intro acc; simp
  | cons n rest ih =>
    intro acc
    simp only [List.foldl_cons, ih, List.cons_ne_nil, false_and, iff_false, not_and]
    intro _ hp
    exact absurd hp (pitchStep_ne_nil acc n)

theorem splitChannelLoop_spec (c : Nat) :
    ∀ (ns : List MIDINote) (acc : ChanAcc),
      splitChannelLoop c ns acc =
        ⟨acc.notes ++ chanFilter c ns,
         (chanFilter c ns).foldl pitchStep acc.notes_used,
         (chanFilter c ns).foldl (fun m n => min m n.note_number) acc.min_note,
         (chanFilter c ns).foldl (fun m n => max m n.note_number) acc.max_note,
         (chanFilter c ns).foldl (fun m n => min m n.velocity) acc.min_velo,
         (chanFilter c ns).foldl (fun m n => max m n.velocity) acc.max_velo⟩ := by
  intro ns
  induction ns with
  | nil => intro acc; simp [splitChannelLoop, chanFilter]
  | cons n rest ih =>
    intro acc
    by_cases hc : (n.channel == c) = true
    · have hf : chanFilter c (n :: rest) = n :: chanFilter c rest := by
        simp [chanFilter, List.filter_cons, hc]
      rw [hf]
      simp only [splitChannelLoop, hc, if_true]
      rw [ih]
      simp [pitchStep, List.append_assoc]
    · have hf : chanFilter c (n :: rest) = chanFilter c rest := by
        simp [chanFilter, List.filter_cons, hc]
      rw [hf]
      simp only [splitChannelLoop, hc, if_false]
      exact ih acc

theorem splitChannelLoop_init (c : Nat) (ns : List MIDINote) :
    splitChannelLoop c ns initChanAcc =
      ⟨chanFilter c ns, dedupPitches (chanFilter c ns),
       minPitch (chanFilter c ns), maxPitch (chanFilter c ns),
       minVeloOf (chanFilter c ns), maxVeloOf (chanFilter c ns)⟩ := by
  rw [splitChannelLoop_spec]
  simp [initChanAcc, dedupPitches, minPitch, maxPitch, minVeloOf, maxVeloOf]

theorem channelSplitLoop_spec (name : String) (allNotes : List MIDINote) :
    ∀ (cs : List Nat) (used : Nat) (acc : List MIDITrack),
      channelSplitLoop name allNotes cs used acc =
        acc ++ (List.enumFrom used (cs.filter
          (fun c => !(chanFilter c allNotes).isEmpty))).map
          (fun p => chanTrack name allNotes p.2 p.1) := by
  intro cs
  induction cs with
  | nil => intro used acc; simp [channelSplitLoop]
  | cons c cs ih =>
    intro used acc
    by_cases hne : (chanFilter c allNotes).isEmpty = true
    · have hnil : chanFilter c allNotes = [] := by simpa using hne
      have hused : (splitChannelLoop c allNotes initChanAcc).notes_used.isEmpty = true := by
        rw [splitChannelLoop_init]
        simp [dedupPitches, hnil]
      have hfc : (c :: cs).filter (fun c => !(chanFilter c allNotes).isEmpty) =
          cs.filter (fun c => !(chanFilter c allNotes).isEmpty) := by
        simp [List.filter_cons, hne]
      simp only [channelSplitLoop, hused]
      rw [if_pos trivial, ih, hfc]
    · have hnnil : chanFilter c allNotes ≠ [] := by
        intro h
        rw [h] at hne
        exact hne rfl
      have hused : (splitChannelLoop c allNotes initChanAcc).notes_used.isEmpty = false := by
        rw [splitChannelLoop_init]
        simp only [dedupPitches]
        rw [List.isEmpty_eq_false_iff_exists_mem]
        rcases List.exists_mem_of_ne_nil _
          ((not_iff_not.mpr (foldl_pitchStep_eq_nil (chanFilter c allNotes) [])).mpr
            (by simp [hnnil])) with ⟨x, hx⟩
        exact ⟨x, hx⟩
      have hfc : (c :: cs).filter (fun c => !(chanFilter c allNotes).isEmpty) =
          c :: cs.filter (fun c => !(chanFilter c allNotes).isEmpty) := by
        simp [List.filter_cons, hne]
      simp only [channelSplitLoop, hused]
      rw [if_neg Bool.false_ne_true, ih, hfc, splitChannelLoop_init]
      simp [chanTrack, List.enumFrom, List.append_assoc]

theorem tableFind_nil (k : NoteKey) : tableFind [] k = none := rfl

theorem tableFind_append_ne (t : List (NoteKey × NoteOnRecord)) (k k' : NoteKey)
    (r : NoteOnRecord) (h : k' ≠ k) :
    tableFind (t ++ [(k', r)]) k = tableFind t k := by
  simp only [tableFind, List.find?_append]
  cases hf : t.find? (fun kv => kv.1 == k) with
  | some kv => simp [Option.or]
  | none => simp [Option.or, List.find?_cons, h]

theorem tableFind_append_self (t : List (NoteKey × NoteOnRecord)) (k : NoteKey)
    (r : NoteOnRecord) (h : tableFind t k = none) :
    tableFind (t ++ [(k, r)]) k = some r := by
  have hf : t.find? (fun kv => kv.1 == k) = none := by
    cases hf : t.find? (fun kv => kv.1 == k) with
    | none => rfl
    | some kv => rw [tableFind, hf] at h; cases h
  simp [tableFind, List.find?_append, hf, Option.or, List.find?_cons]

theorem tableFind_cons (kv : NoteKey × NoteOnRecord) (t : List (NoteKey × NoteOnRecord))
    (k : NoteKey) :
    tableFind (kv :: t) k = if kv.1 == k then some kv.2 else tableFind t k := by
  by_cases hk : (kv.1 == k) = true
  · rw [if_pos hk]
    simp only [tableFind, List.find?]
    rw [hk]
    rfl
  · have hk' : (kv.1 == k) = false := by rwa [Bool.not_eq_true] at hk
    rw [if_neg hk]
    simp only [tableFind, List.find?]
    rw [hk']

theorem tableFind_map_update_self (t : List (NoteKey × NoteOnRecord)) (k : NoteKey)
    (f : NoteOnRecord → NoteOnRecord) :
    tableFind (t.map (fun kv => if kv.1 == k then (kv.1, f kv.2) else kv)) k =
      (tableFind t k).map f := by
  induction t with
  | nil => rfl
  | cons kv t ih =>
    by_cases hk : kv.1 = k
    · simp [List.map_cons, tableFind_cons, hk]
    · simpa [List.map_cons, tableFind_cons, hk] using ih

theorem tableFind_map_update_ne (t : List (NoteKey × NoteOnRecord)) (k k' : NoteKey)
    (f : NoteOnRecord → NoteOnRecord) (h : k' ≠ k) :
    tableFind (t.map (fun kv => if kv.1 == k' then (kv.1, f kv.2) else kv)) k =
      tableFind t k := by
  induction t with
  | nil => rfl
  | cons kv t ih =>
    by_cases hk : kv.1 = k'
    · simpa [List.map_cons, tableFind_cons, hk, h] using ih
    · by_cases hkk : kv.1 = k
      · simp [List.map_cons, tableFind_cons, hk, hkk, Ne.symm h]
      · simpa [List.map_cons, tableFind_cons, hk, hkk] using ih

theorem tableFind_filter_self (t : List (NoteKey × NoteOnRecord)) (k : NoteKey) :
    tableFind (t.filter (fun kv => kv.1 != k)) k = none := by
  induction t with
  | nil => rfl
  | cons kv t ih =>
    by_cases hk : kv.1 = k
    · simpa [List.filter_cons, hk] using ih
    · simpa [List.filter_cons, hk, tableFind_cons] using ih

theorem tableFind_filter_ne (t : List (NoteKey × NoteOnRecord)) (k k' : NoteKey)
    (h : k' ≠ k) :
    tableFind (t.filter (fun kv => kv.1 != k')) k = tableFind t k := by
  induction t with
  | nil => rfl
  | cons kv t ih =>
    by_cases hk : kv.1 = k'
    · simpa [List.filter_cons, hk, tableFind_cons, h] using ih
    · by_cases hkk : kv.1 = k
      · simp [List.filter_cons, hk, hkk, tableFind_cons, Ne.symm h]
      · simpa [List.filter_cons, hk, hkk, tableFind_cons] using ih

theorem record_note_on_find_self (ts : TrackState) (ch p vel : Nat) :
    tableFind (record_note_on ts ch p vel).note_on_table (ch, p) =
      (match tableFind ts.note_on_table (ch, p) with
       | none => some ⟨ts.time_in_ticks, ts.time_in_seconds, (vel : ℚ)/127, 1⟩
       | some r => some { r with number_of_notes := r.number_of_notes + 1 }) := by
  unfold record_note_on
  dsimp only
  cases hf : tableFind ts.note_on_table (ch, p) with
  | some r =>
    dsimp only
    rw [tableFind_map_update_self ts.note_on_table (ch, p)
      (fun r0 => { r0 with number_of_notes := r0.number_of_notes + 1 }), hf]
    rfl
  | none =>
    dsimp only
    exact tableFind_append_self _ _ _ hf

theorem record_note_on_find_other (ts : TrackState) (ch p vel : Nat) (k : NoteKey)
    (h : k ≠ (ch, p)) :
    tableFind (record_note_on ts ch p vel).note_on_table k =
      tableFind ts.note_on_table k := by
  unfold record_note_on
  dsimp only
  cases hf : tableFind ts.note_on_table (ch, p) with
  | some r =>
    dsimp only
    exact tableFind_map_update_ne _ _ _
      (fun r0 => { r0 with number_of_notes := r0.number_of_notes + 1 }) (Ne.symm h)
  | none =>
    dsimp only
    exact tableFind_append_ne _ _ _ _ (Ne.symm h)

theorem record_note_on_time (ts : TrackState) (ch p vel : Nat) :
    (record_note_on ts ch p vel).time_in_ticks = ts.time_in_ticks := by
  unfold record_note_on
  dsimp only
  cases tableFind ts.note_on_table (ch, p) <;> rfl

theorem get_corresponding_other_key (ts : TrackState) (ch p : Nat)
    (res : Option NoteOnRecord) (ts' : TrackState) (k : NoteKey)
    (h : get_corresponding_note_on_record ts ch p = .ok (res, ts')) (hk : k ≠ (ch, p)) :
    tableFind ts'.note_on_table k = tableFind ts.note_on_table k := by
  unfold get_corresponding_note_on_record at h
  dsimp only at h
  split at h
  · cases h
  · rename_i r hf
    split at h
    · cases h
      exact tableFind_filter_ne _ _ _ (Ne.symm hk)
    · cases h
      exact tableFind_map_update_ne _ _ _
        (fun r0 => { r0 with number_of_notes := r0.number_of_notes - 1 }) (Ne.symm hk)

theorem get_corresponding_time (ts : TrackState) (ch p : Nat)
    (res : Option NoteOnRecord) (ts' : TrackState)
    (h : get_corresponding_note_on_record ts ch p = .ok (res, ts')) :
    ts'.time_in_ticks = ts.time_in_ticks := by
  unfold get_corresponding_note_on_record at h
  dsimp only at h
  split at h
  · cases h
  · rename_i r hf
    split at h
    · cases h
      rfl
    · cases h
      rfl

theorem time_conv_ok_inv (midi_format ppqn : Nat) (tts : List (List TempoEventRecord))
    (track_index t : Nat) (secs : ℚ)
    (h : time_in_ticks_to_seconds midi_format ppqn tts track_index t = .ok secs) :
    secs = tick_seconds ppqn (govList midi_format track_index tts) t := by
  unfold time_in_ticks_to_seconds at h
  cases hg : tts.get? (govIndex midi_format track_index) with
  | none => rw [hg] at h; cases h
  | some l =>
    rw [hg] at h
    cases h
    unfold govList
    rw [List.getD_eq_getElem?_getD, ← List.get?_eq_getElem?, hg]
    rfl

theorem notesAt_append_key (ch p : Nat) (ns : List MIDINote) (n : MIDINote)
    (h : (n.channel == ch && n.note_number == p) = true) :
    notesAt ch p (ns ++ [n]) = notesAt ch p ns ++ [n] := by
  simp [notesAt, List.filter_append, List.filter_cons, h]

theorem notesAt_append_other (ch p : Nat) (ns : List MIDINote) (n : MIDINote)
    (h : (n.channel == ch && n.note_number == p) = false) :
    notesAt ch p (ns ++ [n]) = notesAt ch p ns := by
  simp [notesAt, List.filter_append, List.filter_cons, h]

theorem assembleEvents_append (midi_format ppqn : Nat) (tts : List (List TempoEventRecord))
    (track_index : Nat) :
    ∀ (xs ys : List MEvent) (st : AsmState),
      assembleEvents midi_format ppqn tts track_index (xs ++ ys) st =
        (match assembleEvents midi_format ppqn tts track_index xs st with
         | .error e => .error e
         | .ok st' => assembleEvents midi_format ppqn tts track_index ys st') := by
  intro xs
  induction xs with
  | nil => intro ys st; rfl
  | cons x xs ih =>
    intro ys st
    simp only [List.cons_append, assembleEvents]
    cases hs : assembleStep midi_format ppqn tts track_index st x with
    | error e => rfl
    | ok st' => exact ih ys st'

theorem assembleEvents_append_ok (midi_format ppqn : Nat)
    (tts : List (List TempoEventRecord)) (track_index : Nat)
    (xs ys : List MEvent) (st a : AsmState)
    (h : assembleEvents midi_format ppqn tts track_index (xs ++ ys) st = .ok a) :
    ∃ st', assembleEvents midi_format ppqn tts track_index xs st = .ok st' ∧
      assembleEvents midi_format ppqn tts track_index ys st' = .ok a := by
  rw [assembleEvents_append] at h
  cases hx : assembleEvents midi_format ppqn tts track_index xs st with
  | error e => rw [hx] at h; cases h
  | ok st' => rw [hx] at h; exact ⟨st', rfl, h⟩

theorem assembleEvents_cons_ok (midi_format ppqn : Nat)
    (tts : List (List TempoEventRecord)) (track_index : Nat)
    (e : MEvent) (evs : List MEvent) (st a : AsmState)
    (h : assembleEvents midi_format ppqn tts track_index (e :: evs) st = .ok a) :
    ∃ st', assembleStep midi_format ppqn tts track_index st e = .ok st' ∧
      assembleEvents midi_format ppqn tts track_index evs st' = .ok a := by
  rw [assembleEvents] at h
  cases hs : assembleStep midi_format ppqn tts track_index st e with
  | error err => rw [hs] at h; cases h
  | ok st' => rw [hs] at h; exact ⟨st', rfl, h⟩

theorem assembleStep_note_on_key (midi_format ppqn : Nat)
    (tts : List (List TempoEventRecord)) (track_index : Nat)
    (st st' : AsmState) (d ch p v : Nat)
    (h : assembleStep midi_format ppqn tts track_index st ⟨d, .noteOn ch p v⟩ = .ok st') :
    st'.ts.time_in_ticks = st.ts.time_in_ticks + d ∧
    st'.notes = st.notes ∧
    tableFind st'.ts.note_on_table (ch, p) =
      (match tableFind st.ts.note_on_table (ch, p) with
       | none => some ⟨st.ts.time_in_ticks + d,
           tick_seconds ppqn (govList midi_format track_index tts) (st.ts.time_in_ticks + d),
           (v : ℚ)/127, 1⟩
       | some r => some { r with number_of_notes := r.number_of_notes + 1 }) := by
  simp only [assembleStep] at h
  split at h
  · cases h
  · rename_i secs hsec
    have hsecs := time_conv_ok_inv _ _ _ _ _ _ hsec
    subst hsecs
    cases h
    refine ⟨record_note_on_time _ _ _ _, rfl, ?_⟩
    rw [record_note_on_find_self]

theorem assembleStep_note_off_key_final (midi_format ppqn : Nat)
    (tts : List (List TempoEventRecord)) (track_index : Nat)
    (st st' : AsmState) (d ch p w : Nat) (r : NoteOnRecord)
    (hfind : tableFind st.ts.note_on_table (ch, p) = some r)
    (hn : r.number_of_notes = 1)
    (h : assembleStep midi_format ppqn tts track_index st ⟨d, .noteOff ch p w⟩ = .ok st') :
    st'.ts.time_in_ticks = st.ts.time_in_ticks + d ∧
    tableFind st'.ts.note_on_table (ch, p) = none ∧
    notesAt ch p st'.notes = notesAt ch p st.notes ++
      [⟨ch, p, r.time,
        tick_seconds ppqn (govList midi_format track_index tts) (st.ts.time_in_ticks + d),
        r.velocity⟩] := by
  simp only [assembleStep] at h
  split at h
  · cases h
  · rename_i secs hsec
    have hsecs := time_conv_ok_inv _ _ _ _ _ _ hsec
    subst hsecs
    rw [get_corresponding_note_on_record] at h
    dsimp only at h
    simp only [hfind] at h
    rw [if_pos (by simp [hn])] at h
    cases h
    refine ⟨rfl, tableFind_filter_self _ _, ?_⟩
    exact notesAt_append_key _ _ _ _ (by simp)

theorem assembleStep_note_off_key_dec (midi_format ppqn : Nat)
    (tts : List (List TempoEventRecord)) (track_index : Nat)
    (st st' : AsmState) (d ch p w : Nat) (r : NoteOnRecord)
    (hfind : tableFind st.ts.note_on_table (ch, p) = some r)
    (hn : r.number_of_notes ≠ 1)
    (h : assembleStep midi_format ppqn tts track_index st ⟨d, .noteOff ch p w⟩ = .ok st') :
    st'.ts.time_in_ticks = st.ts.time_in_ticks + d ∧
    tableFind st'.ts.note_on_table (ch, p) =
      some { r with number_of_notes := r.number_of_notes - 1 } ∧
    notesAt ch p st'.notes = notesAt ch p st.notes := by
  simp only [assembleStep] at h
  split at h
  · cases h
  · rename_i secs hsec
    rw [get_corresponding_note_on_record] at h
    dsimp only at h
    simp only [hfind] at h
    rw [if_neg (by simp [hn])] at h
    cases h
    refine ⟨rfl, ?_, rfl⟩
    rw [tableFind_map_update_self _ (ch, p)
      (fun r0 => { r0 with number_of_notes := r0.number_of_notes - 1 }), hfind]
    rfl

theorem assembleStep_skip_key (midi_format ppqn : Nat)
    (tts : List (List TempoEventRecord)) (track_index ch p : Nat)
    (st st' : AsmState) (e : MEvent) (hk : isKeyNote ch p e = false)
    (h : assembleStep midi_format ppqn tts track_index st e = .ok st') :
    tableFind st'.ts.note_on_table (ch, p) = tableFind st.ts.note_on_table (ch, p) ∧
    notesAt ch p st'.notes = notesAt ch p st.notes ∧
    st'.ts.time_in_ticks = st.ts.time_in_ticks + e.delta_time := by
  obtain ⟨d, body⟩ := e
  simp only [assembleStep] at h
  split at h
  · cases h
  · cases body
    case noteOn c n v =>
      have hne : ((ch, p) : NoteKey) ≠ (c, n) := by
        intro heq
        obtain ⟨h1, h2⟩ := Prod.mk.injEq .. ▸ heq
        simp [isKeyNote, h1, h2] at hk
      dsimp only at h
      cases h
      exact ⟨record_note_on_find_other _ _ _ _ _ hne, rfl, record_note_on_time _ _ _ _⟩
    case noteOff c n v =>
      have hne : ((ch, p) : NoteKey) ≠ (c, n) := by
        intro heq
        obtain ⟨h1, h2⟩ := Prod.mk.injEq .. ▸ heq
        simp [isKeyNote, h1, h2] at hk
      have hb : (c == ch && n == p) = false := by
        simpa [isKeyNote] using hk
      dsimp only at h
      split at h
      · cases h
      · rename_i ts' hg
        cases h
        have htab := get_corresponding_other_key _ c n _ ts' (ch, p) hg hne
        have htime := get_corresponding_time _ c n _ ts' hg
        exact ⟨htab, rfl, htime⟩
      · rename_i r ts' hg
        cases h
        have htab := get_corresponding_other_key _ c n _ ts' (ch, p) hg hne
        have htime := get_corresponding_time _ c n _ ts' hg
        refine ⟨htab, ?_, htime⟩
        exact notesAt_append_other _ _ _ _ (by simpa using hb)
    all_goals (cases h; exact ⟨rfl, rfl, rfl⟩)

theorem assembleEvents_skip_key (midi_format ppqn : Nat)
    (tts : List (List TempoEventRecord)) (track_index ch p : Nat) :
    ∀ (evs : List MEvent) (st a : AsmState),
      (∀ e ∈ evs, isKeyNote ch p e = false) →
      assembleEvents midi_format ppqn tts track_index evs st = .ok a →
      tableFind a.ts.note_on_table (ch, p) = tableFind st.ts.note_on_table (ch, p) ∧
      notesAt ch p a.notes = notesAt ch p st.notes ∧
      a.ts.time_in_ticks = st.ts.time_in_ticks + sumDelta evs := by
  intro evs
  induction evs with
  | nil =>
    intro st a _ ha
    simp only [assembleEvents] at ha
    cases ha
    exact ⟨rfl, rfl, by simp [sumDelta]⟩
  | cons e rest ih =>
    intro st a h ha
    obtain ⟨st', hs, ha'⟩ := assembleEvents_cons_ok _ _ _ _ _ _ _ _ ha
    obtain ⟨h1, h2, h3⟩ := assembleStep_skip_key _ _ _ _ _ _ _ _ _
      (h e (List.mem_cons_self e rest)) hs
    obtain ⟨h1', h2', h3'⟩ := ih st' a (fun x hx => h x (List.mem_cons_of_mem e hx)) ha'
    refine ⟨h1'.trans h1, h2'.trans h2, ?_⟩
    rw [h3', h3]
    simp [sumDelta]
    omega

/-- C6: for a track whose events on a fixed (channel, pitch) key are
NoteOn, NoteOn, NoteOff, NoteOff in that order, with arbitrary other-key
events interleaved, a successful assembly emits exactly one finalized note
on that key, whose on-time and velocity come from the first NoteOn and
whose off-time is the seconds position of the second NoteOff; moreover,
after processing through the second NoteOn the pending record still holds
the first press's tick/seconds/velocity with the stacked-press counter at
2 (the second NoteOn only incremented the counter, and the first NoteOff
only decrements it back). -/
theorem stacked_note_on_single_note (midi_format ppqn track_index : Nat)
    (tts : List (List TempoEventRecord)) (A B C D E : List MEvent)
    (ch p v1 v2 w1 w2 d1 d2 d3 d4 : Nat) (a : AsmState)
    (hA : ∀ e ∈ A, isKeyNote ch p e = false) (hB : ∀ e ∈ B, isKeyNote ch p e = false)
    (hC : ∀ e ∈ C, isKeyNote ch p e = false) (hD : ∀ e ∈ D, isKeyNote ch p e = false)
    (hE : ∀ e ∈ E, isKeyNote ch p e = false)
    (hok : assembleEvents midi_format ppqn tts track_index
      (A ++ ⟨d1, .noteOn ch p v1⟩ :: (B ++ ⟨d2, .noteOn ch p v2⟩ ::
        (C ++ ⟨d3, .noteOff ch p w1⟩ :: (D ++ ⟨d4, .noteOff ch p w2⟩ :: E))))
      initAsmState = .ok a) :
    notesAt ch p a.notes =
      [⟨ch, p,
        tick_seconds ppqn (govList midi_format track_index tts) (sumDelta A + d1),
        tick_seconds ppqn (govList midi_format track_index tts)
          (sumDelta A + d1 + sumDelta B + d2 + sumDelta C + d3 + sumDelta D + d4),
        (v1 : ℚ)/127⟩] ∧
    (∀ m, assembleEvents midi_format ppqn tts track_index
        (A ++ ⟨d1, .noteOn ch p v1⟩ :: (B ++ [⟨d2, .noteOn ch p v2⟩]))
        initAsmState = .ok m →
      tableFind m.ts.note_on_table (ch, p) =
        some ⟨sumDelta A + d1,
          tick_seconds ppqn (govList midi_format track_index tts) (sumDelta A + d1),
          (v1 : ℚ)/127, 2⟩) := by
  obtain ⟨stA, hA1, hr1⟩ := assembleEvents_append_ok _ _ _ _ _ _ _ _ hok
  obtain ⟨hAk, hAn, hAt⟩ := assembleEvents_skip_key _ _ _ _ _ _ _ _ _ hA hA1
  obtain ⟨st1, hs1, hr2⟩ := assembleEvents_cons_ok _ _ _ _ _ _ _ _ hr1
  obtain ⟨h1t, h1n, h1k⟩ := assembleStep_note_on_key _ _ _ _ _ _ _ _ _ _ hs1
  obtain ⟨stB, hB1, hr3⟩ := assembleEvents_append_ok _ _ _ _ _ _ _ _ hr2
  obtain ⟨hBk, hBn, hBt⟩ := assembleEvents_skip_key _ _ _ _ _ _ _ _ _ hB hB1
  obtain ⟨st2, hs2, hr4⟩ := assembleEvents_cons_ok _ _ _ _ _ _ _ _ hr3
  obtain ⟨h2t, h2n, h2k⟩ := assembleStep_note_on_key _ _ _ _ _ _ _ _ _ _ hs2
  obtain ⟨stC, hC1, hr5⟩ := assembleEvents_append_ok _ _ _ _ _ _ _ _ hr4
  obtain ⟨hCk, hCn, hCt⟩ := assembleEvents_skip_key _ _ _ _ _ _ _ _ _ hC hC1
  obtain ⟨st3, hs3, hr6⟩ := assembleEvents_cons_ok _ _ _ _ _ _ _ _ hr5
  obtain ⟨stD, hD1, hr7⟩ := assembleEvents_append_ok _ _ _ _ _ _ _ _ hr6
  obtain ⟨st4, hs4, hr8⟩ := assembleEvents_cons_ok _ _ _ _ _ _ _ _ hr7
  obtain ⟨hEk, hEn, hEt⟩ := assembleEvents_skip_key _ _ _ _ _ _ _ _ _ hE hr8
  -- ticks bookkeeping
  have tA : stA.ts.time_in_ticks = sumDelta A := by simpa [initAsmState] using hAt
  have t1 : st1.ts.time_in_ticks = sumDelta A + d1 := by rw [h1t, tA]
  have tB : stB.ts.time_in_ticks = sumDelta A + d1 + sumDelta B := by rw [hBt, t1]
  have t2 : st2.ts.time_in_ticks = sumDelta A + d1 + sumDelta B + d2 := by rw [h2t, tB]
  have tC : stC.ts.time_in_ticks = sumDelta A + d1 + sumDelta B + d2 + sumDelta C := by
    rw [hCt, t2]
  -- pending-table bookkeeping
  have h0 : tableFind initAsmState.ts.note_on_table (ch, p) = none := rfl
  rw [h0] at hAk
  rw [hAk] at h1k
  dsimp only at h1k
  rw [tA] at h1k
  rw [h1k] at hBk
  rw [hBk] at h2k
  dsimp only at h2k
  norm_num at h2k
  rw [h2k] at hCk
  obtain ⟨h3t, h3k, h3n⟩ := assembleStep_note_off_key_dec _ _ _ _ _ _ _ _ _ _ _
    hCk (by norm_num) hs3
  norm_num at h3k
  have t3 : st3.ts.time_in_ticks =
      sumDelta A + d1 + sumDelta B + d2 + sumDelta C + d3 := by rw [h3t, tC]
  obtain ⟨hDk, hDn, hDt⟩ := assembleEvents_skip_key _ _ _ _ _ _ _ _ _ hD hD1
  have tD : stD.ts.time_in_ticks =
      sumDelta A + d1 + sumDelta B + d2 + sumDelta C + d3 + sumDelta D := by rw [hDt, t3]
  rw [h3k] at hDk
  obtain ⟨h4t, h4k, h4n⟩ := assembleStep_note_off_key_final _ _ _ _ _ _ _ _ _ _ _
    hDk rfl hs4
  -- notes bookkeeping
  have n0 : notesAt ch p initAsmState.notes = [] := rfl
  have nA : notesAt ch p stA.notes = [] := by rw [hAn, n0]
  have n1 : notesAt ch p st1.notes = [] := by rw [h1n]; exact nA
  have nB : notesAt ch p stB.notes = [] := by rw [hBn]; exact n1
  have n2 : notesAt ch p st2.notes = [] := by rw [h2n]; exact nB
  have nC : notesAt ch p stC.notes = [] := by rw [hCn]; exact n2
  have n3 : notesAt ch p st3.notes = [] := by rw [h3n]; exact nC
  have nD : notesAt ch p stD.notes = [] := by rw [hDn]; exact n3
  have hT4 : stD.ts.time_in_ticks + d4 =
      sumDelta A + d1 + sumDelta B + d2 + sumDelta C + d3 + sumDelta D + d4 := by omega
  constructor
  · rw [hEn, h4n, nD, hT4]
    simp
  · intro m hm
    have hpre : assembleEvents midi_format ppqn tts track_index
        (A ++ ⟨d1, .noteOn ch p v1⟩ :: (B ++ [⟨d2, .noteOn ch p v2⟩]))
        initAsmState = .ok st2 := by
      simp only [assembleEvents_append, hA1, assembleEvents, hs1, hB1, hs2]
    rw [hpre] at hm
    cases hm
    exact h2k

/-- C6 witness: NoteOn(64), a controller event on another key, NoteOn(50),
NoteOff, NoteOff, all at delta 0. -/
theorem stacked_note_on_single_note_witness :
    (∀ e ∈ [(⟨0, .controller 1 7 100⟩ : MEvent)], isKeyNote 0 60 e = false) ∧
    notesAt 0 60 [(⟨0, 60, 0, 0, (64 : ℚ)/127⟩ : MIDINote)] =
      [⟨0, 60, 0, 0, (64 : ℚ)/127⟩] := by
  have h : assembleEvents 2 480 [[]] 0
      ([] ++ ⟨0, .noteOn 0 60 64⟩ :: ([(⟨0, .controller 1 7 100⟩ : MEvent)] ++
        ⟨0, .noteOn 0 60 50⟩ :: ([] ++ ⟨0, .noteOff 0 60 0⟩ ::
          ([] ++ ⟨0, .noteOff 0 60 0⟩ :: []))))
      initAsmState =
      .ok ⟨[⟨0, 60, 0, 0, (64 : ℚ)/127⟩], [60], "", ⟨0, 0, []⟩, 60, 60, 50, 64, 0⟩ := by
    norm_num [assembleEvents, assembleStep, time_in_ticks_to_seconds, govIndex, tick_seconds,
      findTempoEvent, default_tempo_record, record_note_on, get_corresponding_note_on_record,
      tableFind, initAsmState]
  have h2 := (stacked_note_on_single_note 2 480 0 [[]] [] [⟨0, .controller 1 7 100⟩] [] [] []
    0 60 64 50 0 0 0 0 0 0 _ (by decide) (by decide) (by decide) (by decide) (by decide) h).1
  refine ⟨by decide, ?_⟩
  have hsec : tick_seconds 480 (govList 2 0 [[]]) 0 = 0 := by
    norm_num [tick_seconds, govList, govIndex, findTempoEvent, default_tempo_record]
  simpa [sumDelta, hsec] using h2

/-- C7 amended: the format-0 channel split produces, for each channel 0-15
whose note subset is non-empty, exactly one track named
`"<name>-ch<channel>"` containing exactly that channel's notes in order,
with min/max pitch and the used-pitch set recomputed from the subset and
min/max velocity recomputed from the notes' stored normalised (0-1)
velocities — not the raw 0-127 scale — the retained tracks being densely
renumbered from 0; and the output of a successful format-0 `read_midi_file`
is exactly this split of the first assembled track. -/
theorem format0_channel_split :
    (∀ (name : String) (allNotes : List MIDINote),
      channelSplitLoop name allNotes (List.range 16) 0 [] =
        (List.enumFrom 0 ((List.range 16).filter
          (fun c => !(chanFilter c allNotes).isEmpty))).map
          (fun p => chanTrack name allNotes p.2 p.1)) ∧
    (∀ (f : MIDIFile) (out : Nat × List (List TempoEventRecord) × List MIDITrack),
      f.midi_format = 0 → read_midi_file f = .ok out →
      ∃ t0 : MIDITrack,
        out.2.2 = channelSplitLoop t0.name t0.notes (List.range 16) 0 []) := by
  constructor
  · intro name allNotes
    simpa using channelSplitLoop_spec name allNotes (List.range 16) 0 []
  · intro f out hf hread
    simp only [read_midi_file] at hread
    split at hread
    · cases hread
    · split at hread
      · cases hread
      · split at hread
        · cases hread
        · rename_i wt hasm
          rw [if_pos (by simp [hf])] at hread
          split at hread
          · cases hread
          · rename_i t0 hhd
            cases hread
            exact ⟨t0, rfl⟩

/-- C7 amended, witness: a format-0 file with one note on channel 0. -/
theorem format0_channel_split_witness :
    ∃ t0 : MIDITrack,
      (500000, ([[⟨0, 0, 500000⟩]] : List (List TempoEventRecord)),
        channelSplitLoop "" [⟨0, 60, 0, 1/2, (64 : ℚ)/127⟩] (List.range 16) 0 []).2.2 =
      channelSplitLoop t0.name t0.notes (List.range 16) 0 [] := by
  have h1 : read_midi_file ⟨0, 480, [[⟨0, .tempo 500000⟩, ⟨0, .noteOn 0 60 64⟩,
      ⟨480, .noteOff 0 60 0⟩, ⟨0, .endOfTrack⟩]]⟩ =
      .ok (500000, [[⟨0, 0, 500000⟩]],
        channelSplitLoop "" [⟨0, 60, 0, 1/2, (64 : ℚ)/127⟩] (List.range 16) 0 []) := by
    norm_num [read_midi_file, compute_tempo_tracks, computeTempoLoop, scanTempoEvents,
      time_in_ticks_to_seconds, govIndex, tick_seconds, findTempoEvent, default_tempo_record,
      assembleTracksLoop, assembleEvents, assembleStep, record_note_on,
      get_corresponding_note_on_record, tableFind, initAsmState, mkWorkingTrack]
  exact format0_channel_split.2 _ _ rfl h1

/-- C7 counterexample: a format-0 file with one note of raw velocity 64 on
channel 0: the synthesized channel track carries min/max velocity
`64/127` (the normalised value), not the raw 0-127 value 64. -/
theorem read_midi_file_split_velocity_normalised :
    (read_midi_file ⟨0, 480, [[⟨0, .tempo 500000⟩, ⟨0, .noteOn 0 60 64⟩,
        ⟨480, .noteOff 0 60 0⟩, ⟨0, .endOfTrack⟩]]⟩).toOption.map
      (fun out => out.2.2.map (fun t => (t.min_velo, t.max_velo))) =
      some [((64 : ℚ)/127, (64 : ℚ)/127)] ∧ ((64 : ℚ)/127) ≠ 64 := by
  constructor
  · have h1 : read_midi_file ⟨0, 480, [[⟨0, .tempo 500000⟩, ⟨0, .noteOn 0 60 64⟩,
        ⟨480, .noteOff 0 60 0⟩, ⟨0, .endOfTrack⟩]]⟩ =
        .ok (500000, [[⟨0, 0, 500000⟩]],
          channelSplitLoop "" [⟨0, 60, 0, 1/2, (64 : ℚ)/127⟩] (List.range 16) 0 []) := by
      norm_num [read_midi_file, compute_tempo_tracks, computeTempoLoop, scanTempoEvents,
        time_in_ticks_to_seconds, govIndex, tick_seconds, findTempoEvent, default_tempo_record,
        assembleTracksLoop, assembleEvents, assembleStep, record_note_on,
        get_corresponding_note_on_record, tableFind, initAsmState, mkWorkingTrack]
    have hfil : (List.range 16).filter
        (fun c => !(chanFilter c [(⟨0, 60, 0, 1/2, (64 : ℚ)/127⟩ : MIDINote)]).isEmpty) =
        [0] := by
      have hc : ∀ c, (chanFilter c [(⟨0, 60, 0, 1/2, (64 : ℚ)/127⟩ : MIDINote)]).isEmpty =
          !(0 == c) := by
        intro c
        by_cases hc : (0 == c) = true
        · simp [chanFilter, List.filter_cons, hc]
        · simp [chanFilter, List.filter_cons, hc]
      simp only [hc]
      decide
    rw [h1, format0_channel_split.1, hfil]
    simp [List.enumFrom, Except.toOption, chanTrack]
    constructor <;> norm_num [minVeloOf, maxVeloOf, chanFilter, min_def, max_def]
  · norm_num

/-- C10 counterexample: a format-0 file whose single track has no NoteOn but
an orphan NoteOff: `read_midi_file` fails with a key-error (raised during
assembly), not with the out-of-range access on the empty assembled-track
list. -/
theorem read_midi_file_format0_orphan_key_error :
    read_midi_file ⟨0, 480, [[⟨0, .tempo 500000⟩, ⟨0, .noteOff 0 60 0⟩,
        ⟨0, .endOfTrack⟩]]⟩ = .error .keyError ∧
    PyError.keyError ≠ PyError.indexError := by
  refine ⟨?_, by decide⟩
  norm_num [read_midi_file, compute_tempo_tracks, computeTempoLoop, scanTempoEvents,
    time_in_ticks_to_seconds, govIndex, tick_seconds, findTempoEvent, default_tempo_record,
    assembleTracksLoop, assembleEvents, assembleStep, record_note_on,
    get_corresponding_note_on_record, tableFind, initAsmState]

end M2V
